import Mathlib

/-!
Verification of the cap_alerts alert-normalization and batch-load pipeline.

This file gives a shallow embedding of the Python modules
`cap_alerts/util.py`, `cap_alerts/models.py` and `cap_alerts/load_alerts.py`.
Python exceptions are modelled by the `Except PyErr` monad; machine floats
appearing only as parsed decimal literals are modelled exactly by `Rat`;
XML trees are modelled by a simple tag/text/children tree, with the
namespace prefix kept inside the tag string (so a path such as
"cap:severity" is matched by tag equality, mirroring the fixed namespace
map applied by the wrappers in util.py).
-/

/-- Model of the Python exceptions raised by the pipeline.  Raw `ValueError`s
are split by their origin (float conversion, ISO-timestamp parse, enum
lookup, tuple-unpack arity mismatch) so that theorems can distinguish the
tagged `IPAWSAlertsError` from untagged conversion errors. -/
inductive PyErr where
  | requiredElementNotFound (path : String)
  | valueErrorFloat (s : String)
  | valueErrorIso (s : String)
  | valueErrorEnum (enumName : String) (value : String)
  | valueErrorUnpack
  | valueErrorRing (npoints : Nat)
  | ipawsAlertsError (message : String) (detail : String)
  | parseException (text : String)
  | xmlSyntaxError (text : String)
  | jsonDecodeError (line : String)
  | keyError (line : String)
deriving DecidableEq, Repr

/-- Leading/trailing-whitespace strip, as `int()`/`float()` apply to their
argument before parsing. -/
def pyStrip (l : List Char) : List Char :=
  ((l.dropWhile Char.isWhitespace).reverse.dropWhile Char.isWhitespace).reverse

/-- Numeric value of a digit list (most significant first); meaningful only
when every character is a digit. -/
def digitsVal (l : List Char) : Nat :=
  l.foldl (fun a c => 10 * a + (c.toNat - 48)) 0

/-- Digit-run parse: `some` of the value when the list is a nonempty run of
decimal digits, `none` otherwise. -/
def digitsToNat (l : List Char) : Option Nat :=
  if l.isEmpty then none
  else if l.all Char.isDigit then some (digitsVal l) else none

/-- Model of Python `int(st)` on decimal strings: optional surrounding
whitespace, optional sign, then a nonempty digit run.  (Underscore digit
grouping and non-decimal bases are not used by the repository's inputs and
are not modelled.) -/
def pyIntStr (s : String) : Option Int :=
  match pyStrip s.data with
  | '+' :: rest => (digitsToNat rest).map Int.ofNat
  | '-' :: rest => (digitsToNat rest).map (fun n => -(n : Int))
  | rest => (digitsToNat rest).map Int.ofNat

/-- Unsigned decimal-literal parse for the `float()` model: `digits`,
`digits.digits`, `digits.` or `.digits`, valued exactly as a rational. -/
def parseUnsignedFloat (l : List Char) : Option Rat :=
  let intPart := l.takeWhile Char.isDigit
  match l.dropWhile Char.isDigit with
  | [] => if intPart.isEmpty then none else some ((digitsVal intPart : Int) : Rat)
  | '.' :: frac =>
      if frac.all Char.isDigit && (!intPart.isEmpty || !frac.isEmpty) then
        some (mkRat (digitsVal intPart * 10 ^ frac.length + digitsVal frac)
          (10 ^ frac.length))
      else none
  | _ => none

/-- Model of Python `float(st)` restricted to plain decimal literals
(optional surrounding whitespace and sign).  Exponents, `inf` and `nan` do
not occur in CAP coordinate/radius/integer fields and are not modelled; the
literal's exact rational value stands in for the IEEE double. -/
def pyFloatStr (s : String) : Option Rat :=
  match pyStrip s.data with
  | '+' :: rest => parseUnsignedFloat rest
  | '-' :: rest => (parseUnsignedFloat rest).map Neg.neg
  | rest => parseUnsignedFloat rest

/-- Truncation toward zero, as Python `int(float)` applies to a float. -/
def ratTruncZ (q : Rat) : Int :=
  if 0 ≤ q.num then q.num / (q.den : Int) else -((-q.num) / (q.den : Int))

/-- util.convint: try `int(st)`; on ValueError fall back to
`int(float(st))`; if the float conversion also fails the ValueError
escapes (there is no further handler). -/
def convint (st : String) : Except PyErr Int :=
  match pyIntStr st with
  | some n => .ok n
  | none =>
      match pyFloatStr st with
      | some q => .ok (ratTruncZ q)
      | none => .error (.valueErrorFloat st)

/-- XML element: tag (with namespace prefix), optional text, children. -/
inductive Xml where
  | node (tag : String) (text : Option String) (children : List Xml)

def Xml.tag : Xml → String
  | .node t _ _ => t

def Xml.text : Xml → Option String
  | .node _ tx _ => tx

def Xml.children : Xml → List Xml
  | .node _ _ c => c

/-- util.findall: all direct children matching the path (the repository only
uses single-step `cap:`-prefixed paths, resolved here by tag equality). -/
def findall (elem : Xml) (xpath : String) : List Xml :=
  elem.children.filter (fun c => c.tag == xpath)

/-- util.find: first matching subelement, if any. -/
def find (elem : Xml) (xpath : String) : Option Xml :=
  (findall elem xpath).head?

/-- util.get_text, wrapping lxml `findtext`: `none` when no element matches;
the element's text, with `None` text read as the empty string, when one
does. -/
def get_text (elem : Xml) (xpath : String) : Option String :=
  (find elem xpath).map (fun c => c.text.getD "")

/-- util.find_text: like get_text but raises RequiredElementNotFoundError
instead of returning None.  The success value is kept at the dynamic
`Option String` type to mirror the Python value being tested for `None`
downstream in find_int. -/
def find_text (elem : Xml) (xpath : String) : Except PyErr (Option String) :=
  match get_text elem xpath with
  | none => .error (.requiredElementNotFound xpath)
  | some s => .ok (some s)

/-- util.find_int: `convint(x) if (x := find_text(elem, xpath)) is not None
else None`. -/
def find_int (elem : Xml) (xpath : String) : Except PyErr (Option Int) :=
  match find_text elem xpath with
  | .error e => .error e
  | .ok (some x) => (convint x).map some
  | .ok none => .ok none

/-- util.get_int: `convint(x) if (x := get_text(elem, xpath)) is not None
else None`. -/
def get_int (elem : Xml) (xpath : String) : Except PyErr (Option Int) :=
  match get_text elem xpath with
  | some x => (convint x).map some
  | none => .ok none

/-- util.findalltext: texts of all matching children whose text is not
None. -/
def findalltext (elem : Xml) (xpath : String) : List String :=
  (findall elem xpath).filterMap Xml.text

/-- Split a character list at every character satisfying `p`, keeping empty
pieces, as Python `str.split(sep)` does between adjacent separators. -/
def splitOnPred (p : Char → Bool) : List Char → List (List Char)
  | [] => [[]]
  | c :: cs =>
      match splitOnPred p cs with
      | [] => [[]]
      | grp :: rest => if p c then [] :: grp :: rest else (c :: grp) :: rest

/-- Python `str.split(sep)` for a one-character separator. -/
def pySplitOn (s : String) (sep : Char) : List String :=
  (splitOnPred (fun c => c == sep) s.data).map List.asString

/-- Python `str.split()` with no argument: split on whitespace runs,
discarding empty pieces. -/
def pySplitWS (s : String) : List String :=
  ((splitOnPred Char.isWhitespace s.data).filter (fun g => !g.isEmpty)).map
    List.asString

/-- util.extract_spaces: whitespace split of the element text, empty list
when the element is absent or its text empty. -/
def extract_spaces (elem : Xml) (xpath : String) : List String :=
  match get_text elem xpath with
  | some s => if s == "" then [] else pySplitWS s
  | none => []

/-- Model of a Python `datetime` as produced by `datetime.fromisoformat`. -/
structure PyDatetime where
  year : Nat
  month : Nat
  day : Nat
  hour : Nat
  minute : Nat
  second : Nat
  microsecond : Nat
  tzOffsetMinutes : Option Int
deriving DecidableEq, Repr

def isLeapYear (y : Nat) : Bool :=
  y % 4 == 0 && (y % 100 != 0 || y % 400 == 0)

def daysInMonth (y m : Nat) : Nat :=
  if m == 2 then (if isLeapYear y then 29 else 28)
  else if m == 4 || m == 6 || m == 9 || m == 11 then 30
  else 31

/-- Two-digit field parse. -/
def digit2 (a b : Char) : Option Nat :=
  if a.isDigit && b.isDigit then some (10 * (a.toNat - 48) + (b.toNat - 48))
  else none

/-- Four-digit field parse. -/
def digit4 (a b c d : Char) : Option Nat :=
  if a.isDigit && b.isDigit && c.isDigit && d.isDigit then
    some (1000 * (a.toNat - 48) + 100 * (b.toNat - 48) + 10 * (c.toNat - 48)
      + (d.toNat - 48))
  else none

/-- Trailing UTC-offset parse: empty, `Z`, or `±HH:MM`. -/
def parseTzOffset : List Char → Option (Option Int)
  | [] => some none
  | ['Z'] => some (some 0)
  | sign :: h1 :: h2 :: ':' :: m1 :: m2 :: [] =>
      if sign = '+' ∨ sign = '-' then
        match digit2 h1 h2, digit2 m1 m2 with
        | some oh, some om =>
            if oh < 24 ∧ om < 60 then
              some (some (if sign = '-' then -((oh * 60 + om : Nat) : Int)
                else ((oh * 60 + om : Nat) : Int)))
            else none
        | _, _ => none
      else none
  | _ => none

/-- Fractional-second (1 to 6 digits) plus offset parse. -/
def parseFracTz : List Char → Option (Nat × Option Int)
  | '.' :: rest =>
      let fracDigits := rest.takeWhile Char.isDigit
      let rest2 := rest.dropWhile Char.isDigit
      if 1 ≤ fracDigits.length ∧ fracDigits.length ≤ 6 then
        (parseTzOffset rest2).map
          (fun tz => (digitsVal fracDigits * 10 ^ (6 - fracDigits.length), tz))
      else none
  | rest => (parseTzOffset rest).map (fun tz => (0, tz))

/-- Time-of-day parse: `HH:MM`, `HH:MM:SS` or `HH:MM:SS.ffffff`, each with an
optional offset. -/
def parseTimePart (l : List Char) : Option (Nat × Nat × Nat × Nat × Option Int) :=
  match l with
  | h1 :: h2 :: ':' :: mi1 :: mi2 :: rest => do
      let h ← digit2 h1 h2
      let mi ← digit2 mi1 mi2
      if h < 24 ∧ mi < 60 then
        match rest with
        | ':' :: s1 :: s2 :: rest2 => do
            let s ← digit2 s1 s2
            if s < 60 then do
              let (us, tz) ← parseFracTz rest2
              some (h, mi, s, us, tz)
            else none
        | _ => (parseTzOffset rest).map (fun tz => (h, mi, 0, 0, tz))
      else none
  | _ => none

/-- Model of Python `datetime.fromisoformat` restricted to the extended
ISO-8601 shapes occurring in CAP feeds: `YYYY-MM-DD`, optionally followed by
a `T` or space separator, `HH:MM[:SS[.f{1,6}]]`, and an optional `Z` or
`±HH:MM` offset.  Field ranges (month, day-of-month with leap years, hour,
minute, second, offset) are validated as Python does. -/
def pyFromIsoformat (s : String) : Option PyDatetime :=
  match s.data with
  | y1 :: y2 :: y3 :: y4 :: '-' :: m1 :: m2 :: '-' :: d1 :: d2 :: rest => do
      let y ← digit4 y1 y2 y3 y4
      let mo ← digit2 m1 m2
      let d ← digit2 d1 d2
      if 1 ≤ y ∧ 1 ≤ mo ∧ mo ≤ 12 ∧ 1 ≤ d ∧ d ≤ daysInMonth y mo then
        match rest with
        | [] => some ⟨y, mo, d, 0, 0, 0, 0, none⟩
        | sep :: timeRest =>
            if sep = 'T' ∨ sep = ' ' then
              (parseTimePart timeRest).map
                (fun (h, mi, sec, us, tz) => ⟨y, mo, d, h, mi, sec, us, tz⟩)
            else none
      else none
  | _ => none

/-- Character class of `pyparsing.printables` minus the double quote: the
ASCII printable characters other than space that `Word(printables,
exclude_chars =) accepts. -/
def isWordChar (c : Char) : Bool :=
  33 ≤ c.toNat && c.toNat ≤ 126 && c != '"'

/-- Scan for the closing double quote of a `QuotedString`: returns the
content before the quote and the remainder after it; fails when the quote is
unterminated or (multiline being off) a newline intervenes. -/
def scanQuote : List Char → Option (List Char × List Char)
  | [] => none
  | c :: cs =>
      if c = '"' then some ([], cs)
      else if c = '\n' then none
      else
        match scanQuote cs with
        | some (content, rest) => some (c :: content, rest)
        | none => none

theorem scanQuote_length :
    ∀ {cs content rest : List Char},
      scanQuote cs = some (content, rest) → rest.length < cs.length := by
  intro cs
  induction cs with
  | nil => intro content rest h; simp [scanQuote] at h
  | cons c cs ih =>
      intro content rest h
      by_cases hc : c = '"'
      · simp [scanQuote, hc] at h
        simp [← h.2]
      · by_cases hn : c = '\n'
        · simp [scanQuote, hc, hn] at h
        · simp only [scanQuote, if_neg hc, if_neg hn] at h
          cases hsc : scanQuote cs with
          | none => rw [hsc] at h; simp at h
          | some p =>
              rw [hsc] at h
              cases p with
              | mk content' rest' =>
                  simp at h
                  have := ih hsc
                  simp [← h.2]
                  omega

theorem length_dropWhile_le (p : Char → Bool) :
    ∀ l : List Char, (l.dropWhile p).length ≤ l.length := by
  intro l
  induction l with
  | nil => simp
  | cons c cs ih =>
      by_cases h : p c
      · rw [List.dropWhile_cons_of_pos h]
        simp only [List.length_cons]
        omega
      · rw [List.dropWhile_cons_of_neg (by simpa using h)]

/-- Model of `quoted_str_parser` matching as far as it can from a position:
pyparsing's `OneOrMore(QuotedString(quote_char =) | Word(printables,
exclude_chars =))` skips whitespace before each alternative, strips the
quotes off a quoted run keeping its content (spaces included) literal, takes
a maximal run of printable non-quote characters otherwise, and stops at the
first position where neither alternative matches. -/
def tokenize (l : List Char) : List String :=
  match l with
  | [] => []
  | c :: cs =>
      if c.isWhitespace then tokenize cs
      else if c = '"' then
        match h : scanQuote cs with
        | some (content, rest) =>
            have : rest.length < cs.length + 1 :=
              Nat.lt_succ_of_lt (scanQuote_length h)
            content.asString :: tokenize rest
        | none => []
      else if h : isWordChar c then
        have : ((c :: cs).dropWhile isWordChar).length < cs.length + 1 := by
          rw [List.dropWhile_cons_of_pos h]
          exact Nat.lt_succ_of_le (length_dropWhile_le _ cs)
        ((c :: cs).takeWhile isWordChar).asString ::
          tokenize ((c :: cs).dropWhile isWordChar)
      else []
termination_by l.length

/-- Model of `quoted_str_parser.parse_string(text).as_list()`:
`parse_string` is called without `parse_all`, so it returns the tokens
matched from the start and silently ignores any unmatched remainder; it
raises `ParseException` only when not even one token matches. -/
def parse_quoted_tokens (text : String) : Except PyErr (List String) :=
  match tokenize text.data with
  | [] => .error (.parseException text)
  | toks => .ok toks

/-- util.extract_quoted: tokenize the element text, returning `[]` when the
element is absent or its text empty. -/
def extract_quoted (elem : Xml) (xpath : String) : Except PyErr (List String) :=
  match get_text elem xpath with
  | some s => if s == "" then .ok [] else parse_quoted_tokens s
  | none => .ok []

/-- models.AlertSeverity (enum member names kept). -/
inductive AlertSeverity where
  | EXTREME
  | SEVERE
  | MODERATE
  | MINOR
  | UNKNOWN
deriving DecidableEq, Repr

/-- The value vocabulary of models.AlertSeverity. -/
def alertSeverityValues : List String :=
  ["Extreme", "Severe", "Moderate", "Minor", "Unknown"]

/-- models.AlertCategoryCode. -/
inductive AlertCategoryCode where
  | GEO
  | MET
  | SAFETY
  | SECURITY
  | RESCUE
  | FIRE
  | HEALTH
  | ENV
  | TRANSPORT
  | INFRA
  | CBRNE
  | OTHER
deriving DecidableEq, Repr

/-- Python `AlertCategoryCode(x)`: enum lookup by value; an unrecognized
value raises `ValueError` naming the enum class. -/
def AlertCategoryCode.fromValue : String → Except PyErr AlertCategoryCode
  | "Geo" => .ok .GEO
  | "Met" => .ok .MET
  | "Safety" => .ok .SAFETY
  | "Security" => .ok .SECURITY
  | "Rescue" => .ok .RESCUE
  | "Fire" => .ok .FIRE
  | "Health" => .ok .HEALTH
  | "Env" => .ok .ENV
  | "Transport" => .ok .TRANSPORT
  | "Infra" => .ok .INFRA
  | "CBRNE" => .ok .CBRNE
  | "Other" => .ok .OTHER
  | s => .error (.valueErrorEnum "AlertCategoryCode" s)

/-- models.AlertResponseTypeCode. -/
inductive AlertResponseTypeCode where
  | SHELTER
  | EVACUATE
  | PREPARE
  | EXECUTE
  | AVOID
  | MONITOR
  | ASSESS
  | ALLCLEAR
  | NONE
deriving DecidableEq, Repr

/-- Python `AlertResponseTypeCode(x)`: enum lookup by value. -/
def AlertResponseTypeCode.fromValue : String → Except PyErr AlertResponseTypeCode
  | "Shelter" => .ok .SHELTER
  | "Evacuate" => .ok .EVACUATE
  | "Prepare" => .ok .PREPARE
  | "Execute" => .ok .EXECUTE
  | "Avoid" => .ok .AVOID
  | "Monitor" => .ok .MONITOR
  | "Assess" => .ok .ASSESS
  | "AllClear" => .ok .ALLCLEAR
  | "None" => .ok .NONE
  | s => .error (.valueErrorEnum "AlertResponseTypeCode" s)

/-- Shapely geometry expressions built by the Geometry Builder.
`buffered x y d` stands for `Point(x, y).buffer(d)`, the polygonal disc of
radius `d` centered at `(x, y)`. -/
inductive Geom where
  | point (x y : Rat)
  | buffered (x y : Rat) (dist : Rat)
  | polygon (pts : List (Rat × Rat))
deriving DecidableEq, Repr

/-- Centroid of the modelled geometries.  Shapely's buffer of a point is a
regular polygon symmetric about that point, so its centroid is the center
itself (exactly; the floating-point computation agrees to rounding).
Polygon-list centroids are not needed by any claim and are left out. -/
def Geom.centroid : Geom → Option (Rat × Rat)
  | .point x y => some (x, y)
  | .buffered x y _ => some (x, y)
  | .polygon _ => none

/-- models.AreaPolygon: the geometry together with the SRID tag written into
the EWKT string `srid=4326;...`. -/
structure AreaPolygon where
  srid : Nat
  geom : Geom
deriving DecidableEq, Repr

/-- Python `float(s)` where an unparsable string lets the ValueError
escape. -/
def pyFloat (s : String) : Except PyErr Rat :=
  match pyFloatStr s with
  | some q => .ok q
  | none => .error (.valueErrorFloat s)

/-- models.AreaPolygon.from_circle_text.  The try block guards only the two
splits (whitespace split into coords and radius, comma split into latitude
and longitude), translating their ValueError into
`IPAWSAlertsError("Malformed AreaPolygon[circle]", text)`; the three float
conversions and the buffering happen after the except clause.  Note the
point is `Point(float(latitude), float(longitude))`, i.e. x = latitude. -/
def AreaPolygon.from_circle_text (text : String) : Except PyErr AreaPolygon :=
  match pySplitWS text with
  | [coords, radius] =>
      match pySplitOn coords ',' with
      | [latitude, longitude] =>
          match pyFloatStr latitude with
          | none => .error (.valueErrorFloat latitude)
          | some la =>
              match pyFloatStr longitude with
              | none => .error (.valueErrorFloat longitude)
              | some lo =>
                  match pyFloatStr radius with
                  | none => .error (.valueErrorFloat radius)
                  | some r => .ok ⟨4326, .buffered la lo (r * 1000)⟩
      | _ => .error (.ipawsAlertsError "Malformed AreaPolygon[circle]" text)
  | _ => .error (.ipawsAlertsError "Malformed AreaPolygon[circle]" text)

/-- Ring-construction loop of from_polygon_text: for each token the comma
split and both float conversions sit inside the try block; the point is
`Point(float(longitude), float(latitude))`, i.e. x = longitude. -/
def parsePoints : List String → Except PyErr (List (Rat × Rat))
  | [] => .ok []
  | tok :: rest =>
      match pySplitOn tok ',' with
      | [latitude, longitude] =>
          match pyFloatStr longitude with
          | none => .error (.valueErrorFloat longitude)
          | some lo =>
              match pyFloatStr latitude with
              | none => .error (.valueErrorFloat latitude)
              | some la =>
                  match parsePoints rest with
                  | .error e => .error e
                  | .ok ps => .ok ((lo, la) :: ps)
      | _ => .error .valueErrorUnpack

/-- Shapely `Polygon(shell)` at its interface: an empty shell gives the
empty polygon, a shell of one or two points raises ValueError (a linear
ring requires at least four coordinates after auto-closing), and three or
more points build the ring. -/
def shapelyPolygon (pts : List (Rat × Rat)) : Except PyErr Geom :=
  if pts.length = 1 ∨ pts.length = 2 then .error (.valueErrorRing pts.length)
  else .ok (.polygon pts)

/-- models.AreaPolygon.from_polygon_text: any ValueError from the ring loop
becomes `IPAWSAlertsError("Malformed AreaPolygon[polygon]", text)`; the
`Polygon(points)` construction sits after the except clause, so its
ring-size ValueError escapes untagged. -/
def AreaPolygon.from_polygon_text (text : String) : Except PyErr AreaPolygon :=
  match parsePoints (pySplitWS text) with
  | .ok pts =>
      match shapelyPolygon pts with
      | .error e => .error e
      | .ok g => .ok ⟨4326, g⟩
  | .error _ => .error (.ipawsAlertsError "Malformed AreaPolygon[polygon]" text)

/-- models.AlertReference rows (persistence ids omitted). -/
structure AlertReference where
  sender : Option String
  identifier : String
  sent : Option PyDatetime
deriving DecidableEq, Repr

/-- models.AlertReference.from_text: try to unpack a comma split into
exactly three names and to ISO-parse the third; any ValueError (wrong arity
or bad timestamp) selects the bare-identifier fallback. -/
def AlertReference.from_text (text : String) : AlertReference :=
  match pySplitOn text ',' with
  | [sender, identifier, sent_str] =>
      match pyFromIsoformat sent_str with
      | some dt => ⟨some sender, identifier, some dt⟩
      | none => ⟨none, text, none⟩
  | _ => ⟨none, text, none⟩

/-- Modelled from the spec: models.py imports `findtext` from
cap_alerts.util, but the util.py given under src defines only
get_text/find_text.  models.py relies on an optional accessor (optional
columns, truthiness tests), so `findtext` is modelled on the spec's
`optionalText` (§4.1): first matching element's text, absent if no match or
empty. -/
def findtext (elem : Xml) (xpath : String) : Option String :=
  match get_text elem xpath with
  | some s => if s == "" then none else some s
  | none => none

/-- Modelled from the spec: models.py imports `findint` from
cap_alerts.util, absent from the util.py given under src; modelled on the
spec's `optionalInt` (§4.1), i.e. `convint` applied to the optional text. -/
def findint (elem : Xml) (xpath : String) : Except PyErr (Option Int) :=
  match findtext elem xpath with
  | some s => (convint s).map some
  | none => .ok none

/-- Name/value child rows (models.AlertInfoEventCode, AlertInfoParameter,
AreaGeoCode all carry the same two findtext fields). -/
structure NamedValue where
  value_name : Option String
  value : Option String
deriving DecidableEq, Repr

def NamedValue.from_element (elem : Xml) : NamedValue :=
  ⟨findtext elem "cap:valueName", findtext elem "cap:value"⟩

/-- models.AlertInfoResource rows. -/
structure AlertInfoResource where
  resource_description : Option String
  mime_type : Option String
  size : Option Int
  uri : Option String
  deref_uri : Option String
  digest : Option String
deriving DecidableEq, Repr

/-- A Python list comprehension whose element constructor may raise:
results are built left to right and the first exception escapes. -/
def listComp {A B : Type} (f : A → Except PyErr B) : List A → Except PyErr (List B)
  | [] => .ok []
  | x :: xs =>
      match f x with
      | .error e => .error e
      | .ok y =>
          match listComp f xs with
          | .error e => .error e
          | .ok ys => .ok (y :: ys)

/-- models.AlertInfoResource.from_element; only the size conversion can
raise. -/
def AlertInfoResource.from_element (elem : Xml) : Except PyErr AlertInfoResource :=
  match findint elem "cap:size" with
  | .error e => .error e
  | .ok size =>
      .ok { resource_description := findtext elem "cap:resourceDesc"
            mime_type := findtext elem "cap:mimeType"
            size := size
            uri := findtext elem "cap:uri"
            deref_uri := findtext elem "cap:derefUri"
            digest := findtext elem "cap:digest" }

/-- models.Area rows. -/
structure Area where
  area_description : Option String
  altitude : Option Int
  ceiling : Option Int
  polygons : List AreaPolygon
  geocodes : List NamedValue
deriving DecidableEq, Repr

/-- models.Area.from_element: polygon-text geometries, then circle-text
geometries (the order of `chain`), then geocodes, then the scalar fields. -/
def Area.from_element (elem : Xml) : Except PyErr Area :=
  match listComp AreaPolygon.from_polygon_text (findalltext elem "cap:polygon") with
  | .error e => .error e
  | .ok polys =>
      match listComp AreaPolygon.from_circle_text (findalltext elem "cap:circle") with
      | .error e => .error e
      | .ok circles =>
          match findint elem "cap:altitude" with
          | .error e => .error e
          | .ok altitude =>
              match findint elem "cap:ceiling" with
              | .error e => .error e
              | .ok ceiling =>
                  .ok { area_description := findtext elem "cap:areaDesc"
                        altitude := altitude
                        ceiling := ceiling
                        polygons := polys ++ circles
                        geocodes := (findall elem "cap:geocode").map
                          NamedValue.from_element }

/-- The walrus pattern `if s := findtext(elem, path): datetime.fromisoformat(s)`:
absent or empty text gives None; nonempty unparsable text raises
ValueError. -/
def parseOptDate (elem : Xml) (xpath : String) : Except PyErr (Option PyDatetime) :=
  match findtext elem xpath with
  | some s =>
      match pyFromIsoformat s with
      | some dt => .ok (some dt)
      | none => .error (.valueErrorIso s)
  | none => .ok none

/-- models.AlertInfo rows as built by normalization.  The columns urgency,
severity and certainty are annotated `Mapped[Alert...]` enum types, but
`from_element` assigns them the raw `findtext` strings; the model records
what normalization actually produces. -/
structure AlertInfo where
  language : Option String
  event : Option String
  urgency : Option String
  severity : Option String
  certainty : Option String
  audience : Option String
  effective : Option PyDatetime
  onset : Option PyDatetime
  expires : Option PyDatetime
  sender_name : Option String
  headline : Option String
  description : Option String
  instruction : Option String
  web : Option String
  contact : Option String
  categories : List AlertCategoryCode
  response_types : List AlertResponseTypeCode
  event_codes : List NamedValue
  parameters : List NamedValue
  resources : List AlertInfoResource
  areas : List Area
deriving DecidableEq, Repr

/-- models.AlertInfo.from_element, in source evaluation order:
response types (enum-validated), event codes, categories (enum-validated),
parameters, resources, areas, the three optional dates, then the
constructor call whose scalar fields are plain findtext strings. -/
def AlertInfo.from_element (elem : Xml) : Except PyErr AlertInfo :=
  match listComp AlertResponseTypeCode.fromValue
      (findalltext elem "cap:responseType") with
  | .error e => .error e
  | .ok response_types =>
      match listComp AlertCategoryCode.fromValue
          (findalltext elem "cap:category") with
      | .error e => .error e
      | .ok categories =>
          match listComp AlertInfoResource.from_element
              (findall elem "cap:resource") with
          | .error e => .error e
          | .ok resources =>
              match listComp Area.from_element (findall elem "cap:area") with
              | .error e => .error e
              | .ok areas =>
                  match parseOptDate elem "cap:effective" with
                  | .error e => .error e
                  | .ok effective =>
                      match parseOptDate elem "cap:onset" with
                      | .error e => .error e
                      | .ok onset =>
                          match parseOptDate elem "cap:expires" with
                          | .error e => .error e
                          | .ok expires =>
                              .ok { language := findtext elem "cap:language"
                                    event := findtext elem "cap:event"
                                    urgency := findtext elem "cap:urgency"
                                    severity := findtext elem "cap:severity"
                                    certainty := findtext elem "cap:certainty"
                                    audience := findtext elem "cap:audience"
                                    effective := effective
                                    onset := onset
                                    expires := expires
                                    sender_name := findtext elem "cap:senderName"
                                    headline := findtext elem "cap:headline"
                                    description := findtext elem "cap:description"
                                    instruction := findtext elem "cap:instruction"
                                    web := findtext elem "cap:web"
                                    contact := findtext elem "cap:contact"
                                    categories := categories
                                    response_types := response_types
                                    event_codes := (findall elem "cap:eventCode").map
                                      NamedValue.from_element
                                    parameters := (findall elem "cap:parameter").map
                                      NamedValue.from_element
                                    resources := resources
                                    areas := areas }

/-- models.Alert rows as built by normalization (status, msgtype, scope are
plain string columns in the source as well). -/
structure Alert where
  identifier : Option String
  sender : Option String
  sent : Option PyDatetime
  status : Option String
  msgtype : Option String
  source : Option String
  scope : Option String
  restriction : Option String
  note : Option String
  addresses : List String
  codes : List String
  references : List AlertReference
  incidents : List String
  alert_info : List AlertInfo
deriving DecidableEq, Repr

/-- models.Alert.from_element, in source evaluation order: the optional sent
timestamp, then addresses, codes, references, incidents and info blocks,
then the constructor with plain findtext scalar fields. -/
def Alert.from_element (elem : Xml) : Except PyErr Alert :=
  match parseOptDate elem "cap:sent" with
  | .error e => .error e
  | .ok sent =>
      match extract_quoted elem "cap:addresses" with
      | .error e => .error e
      | .ok addresses =>
          match extract_quoted elem "cap:references" with
          | .error e => .error e
          | .ok refToks =>
              match extract_quoted elem "cap:incidents" with
              | .error e => .error e
              | .ok incidents =>
                  match listComp AlertInfo.from_element
                      (findall elem "cap:info") with
                  | .error e => .error e
                  | .ok alert_info =>
                      .ok { identifier := findtext elem "cap:identifier"
                            sender := findtext elem "cap:sender"
                            sent := sent
                            status := findtext elem "cap:status"
                            msgtype := findtext elem "cap:msgType"
                            source := findtext elem "cap:source"
                            scope := findtext elem "cap:scope"
                            restriction := findtext elem "cap:restriction"
                            note := findtext elem "cap:note"
                            addresses := addresses
                            codes := findalltext elem "cap:code"
                            references := refToks.map AlertReference.from_text
                            incidents := incidents
                            alert_info := alert_info }

/-- A raw alert document string at lxml's interface: `etree.fromstring`
either yields the parsed root element or raises `XMLSyntaxError`; the XML
grammar itself is modelled at that boundary. -/
inductive XmlText where
  | valid (root : Xml)
  | invalid (raw : String)

/-- lxml `etree.fromstring` at its interface. -/
def etree_fromstring : XmlText → Except PyErr Xml
  | .valid root => .ok root
  | .invalid raw => .error (.xmlSyntaxError raw)

/-- The destination store: the alerts committed so far, in commit order.
Each `session.begin()` block commits one alert with its whole owned
subtree (the subtree is embedded in the `Alert` value), so one append
models one atomic transaction. -/
abbrev DB : Type := List Alert

/-- load_alerts.insert_alert: parse the raw document, normalize it, and
commit the resulting graph in one transaction. -/
def insert_alert (raw_xml : XmlText) (db : DB) : Except PyErr DB :=
  match etree_fromstring raw_xml with
  | .error e => .error e
  | .ok root =>
      match Alert.from_element root with
      | .error e => .error e
      | .ok alert => .ok (db ++ [alert])

/-- One line of a segment file at msgspec's interface: JSON decoding and
the `"originalMessage"` field access are modelled by their outcomes. -/
inductive RawLine where
  | invalidJson (raw : String)
  | missingKey (raw : String)
  | record (originalMessage : XmlText)

/-- `msgspec.json.Decoder().decode(line)["originalMessage"]` at its
interface. -/
def decodeLine : RawLine → Except PyErr XmlText
  | .invalidJson raw => .error (.jsonDecodeError raw)
  | .missingKey raw => .error (.keyError raw)
  | .record msg => .ok msg

/-- load_alerts.process_file on the decoded lines of one segment file: the
per-record loop has no try/except, so the first exception from decoding or
inserting a record propagates out of the loop; alerts committed for earlier
records stay in the store.  The progress-dict writes after each record are
presentation only and carry no data, so they are not modelled.  The result
is the store after the run together with the outcome (`ok` means the loop
finished; `error` means the exception that escaped). -/
def process_file (lines : List RawLine) (db : DB) : DB × Except PyErr Unit :=
  match lines with
  | [] => (db, .ok ())
  | l :: rest =>
      match decodeLine l with
      | .error e => (db, .error e)
      | .ok raw_xml =>
          match insert_alert raw_xml db with
          | .error e => (db, .error e)
          | .ok db2 => process_file rest db2

/-- The fate of one record when reached by the loop: decode, parse,
normalize (independent of the store contents). -/
def recordResult (l : RawLine) : Except PyErr Alert :=
  match decodeLine l with
  | .error e => .error e
  | .ok raw_xml =>
      match etree_fromstring raw_xml with
      | .error e => .error e
      | .ok root => Alert.from_element root

/-- load_alerts.main, `for future in futures: future.result()`: the first
error among the per-file outcomes, in submission order. -/
def firstError : List (Except PyErr Unit) → Option PyErr
  | [] => none
  | .error e :: _ => some e
  | .ok _ :: rest => firstError rest

instance {e a : Type} [DecidableEq e] [DecidableEq a] : DecidableEq (Except e a) :=
  fun x y =>
    match x, y with
    | .ok u, .ok v =>
        if h : u = v then isTrue (by rw [h]) else isFalse (by simp [h])
    | .error u, .error v =>
        if h : u = v then isTrue (by rw [h]) else isFalse (by simp [h])
    | .ok _, .error _ => isFalse (by simp)
    | .error _, .ok _ => isFalse (by simp)

/-- Observable events of one Orchestrator run, in order. -/
inductive JobEvent where
  | fileTerminal (idx : Nat) (outcome : Except PyErr Unit)
  | jobFailed (e : PyErr)
  | jobCompleted (filesProcessed : Nat)
deriving DecidableEq, Repr

/-- The per-file outcome as observed from `future.exception()` /
`future.result()`. -/
def fileOutcome (lines : List RawLine) : Except PyErr Unit :=
  (process_file lines []).2

/-- Sequential model of load_alerts.main over the discovered segment files
(each given by its decoded lines): every submitted task runs to its
terminal state, because the ProcessPoolExecutor never cancels peers on a
task failure and the poll loop `while n_finished < len(futures)` exits only
once every future is done; only then does `for future in futures:
future.result()` re-raise the first error, and with no error the run
reaches the final log with all files processed.  The trace lists the
terminal event of every file followed by the single job-level outcome. -/
def mainTrace (files : List (List RawLine)) : List JobEvent :=
  ((files.map fileOutcome).enum.map (fun p => JobEvent.fileTerminal p.1 p.2))
    ++ [match firstError (files.map fileOutcome) with
        | some e => .jobFailed e
        | none => .jobCompleted files.length]

theorem mem_dropWhile_of_not {p : Char → Bool} {c : Char} (hc : p c = false) :
    ∀ {l : List Char}, c ∈ l → c ∈ l.dropWhile p := by
  intro l
  induction l with
  | nil => intro h; cases h
  | cons a l ih =>
      intro h
      by_cases ha : p a = true
      · rw [List.dropWhile_cons_of_pos ha]
        rcases List.mem_cons.mp h with rfl | hmem
        · rw [ha] at hc; cases hc
        · exact ih hmem
      · rw [List.dropWhile_cons_of_neg ha]
        exact h

theorem mem_pyStrip {c : Char} (hc : c.isWhitespace = false) {l : List Char}
    (h : c ∈ l) : c ∈ pyStrip l := by
  unfold pyStrip
  rw [List.mem_reverse]
  exact mem_dropWhile_of_not hc (List.mem_reverse.mpr (mem_dropWhile_of_not hc h))

theorem digitsToNat_none_of_mem {c : Char} (hd : c.isDigit = false) {l : List Char}
    (h : c ∈ l) : digitsToNat l = none := by
  have hall : l.all Char.isDigit = false := by
    cases hA : l.all Char.isDigit
    · rfl
    · have := (List.all_eq_true.mp hA) c h
      rw [hd] at this
      cases this
  unfold digitsToNat
  by_cases he : l.isEmpty <;> simp [he, hall]

theorem pyIntStr_none_of_dot {st : String} (h : '.' ∈ st.data) :
    pyIntStr st = none := by
  have hmem : '.' ∈ pyStrip st.data := mem_pyStrip (by decide) h
  unfold pyIntStr
  split
  case _ rest heq =>
    have hr : '.' ∈ rest := by
      rw [heq] at hmem
      rcases List.mem_cons.mp hmem with h1 | h1
      · exact absurd h1 (by decide)
      · exact h1
    rw [digitsToNat_none_of_mem (by decide) hr]
    rfl
  case _ rest heq =>
    have hr : '.' ∈ rest := by
      rw [heq] at hmem
      rcases List.mem_cons.mp hmem with h1 | h1
      · exact absurd h1 (by decide)
      · exact h1
    rw [digitsToNat_none_of_mem (by decide) hr]
    rfl
  case _ rest h1 h2 =>
    rw [digitsToNat_none_of_mem (by decide) hmem]
    rfl

/-- C6: optionalInt (get_int over convint) parses the element text as an
integer; a text containing a decimal point never parses as a plain integer,
so it is truncated via the float parse; and when neither the integer nor the
float parse succeeds the numeric ValueError (the spec's MalformedNumberError)
is raised. -/
theorem C6_optional_int_parse :
    (∀ st n, pyIntStr st = some n → convint st = .ok n)
  ∧ (∀ st : String, '.' ∈ st.data → pyIntStr st = none)
  ∧ (∀ st q, pyIntStr st = none → pyFloatStr st = some q →
        convint st = .ok (ratTruncZ q))
  ∧ (∀ st, pyIntStr st = none → pyFloatStr st = none →
        convint st = .error (.valueErrorFloat st))
  ∧ (∀ elem xpath s, get_text elem xpath = some s →
        get_int elem xpath = (convint s).map some) := by
  refine ⟨?_, ?_, ?_, ?_, ?_⟩
  · intro st n h
    unfold convint
    rw [h]
  · intro st h
    exact pyIntStr_none_of_dot h
  · intro st q h1 h2
    unfold convint
    rw [h1, h2]
  · intro st h1 h2
    unfold convint
    rw [h1, h2]
  · intro elem xpath s h
    unfold get_int
    rw [h]

theorem C6_witness :
    convint "7" = .ok 7
  ∧ pyIntStr "3.9" = none
  ∧ convint "3.9" = .ok (ratTruncZ (mkRat 39 10))
  ∧ ratTruncZ (mkRat 39 10) = 3
  ∧ convint "abc" = .error (.valueErrorFloat "abc") := by
  refine ⟨?_, ?_, ?_, ?_, ?_⟩
  · exact C6_optional_int_parse.1 "7" 7 (by decide)
  · exact C6_optional_int_parse.2.1 "3.9" (by decide)
  · exact C6_optional_int_parse.2.2.1 "3.9" (mkRat 39 10)
      (C6_optional_int_parse.2.1 "3.9" (by decide)) (by rfl)
  · decide
  · exact C6_optional_int_parse.2.2.2.1 "abc" (by decide) (by decide)

/-- C9: find_int never returns the absent value: find_text raises
RequiredElementNotFoundError on a missing element, so the None-returning
branch of find_int is unreachable — find_int either returns an integer or
raises (RequiredElementNotFoundError on absence, the numeric ValueError on
unparsable text), despite its declared optional return type. -/
theorem C9_find_int_never_none :
    (∀ elem xpath, find_int elem xpath ≠ .ok none)
  ∧ (∀ elem xpath, get_text elem xpath = none →
        find_int elem xpath = .error (.requiredElementNotFound xpath))
  ∧ (∀ elem xpath s, get_text elem xpath = some s →
        find_int elem xpath = (convint s).map some) := by
  refine ⟨?_, ?_, ?_⟩
  · intro elem xpath h
    unfold find_int find_text at h
    cases hg : get_text elem xpath with
    | none =>
        rw [hg] at h
        exact Except.noConfusion h
    | some s =>
        rw [hg] at h
        have h2 : (convint s).map some = Except.ok none := h
        cases hc : convint s with
        | ok n => rw [hc] at h2; simp [Except.map] at h2
        | error e => rw [hc] at h2; simp [Except.map] at h2
  · intro elem xpath hg
    unfold find_int find_text
    rw [hg]
  · intro elem xpath s hg
    unfold find_int find_text
    rw [hg]

theorem C9_witness :
    find_int (.node "a" none []) "cap:size" =
      .error (.requiredElementNotFound "cap:size")
  ∧ find_int (.node "a" none [.node "cap:size" (some "5.5") []]) "cap:size" =
      (convint "5.5").map some
  ∧ (convint "5.5").map some = .ok (some 5) := by
  refine ⟨?_, ?_, ?_⟩
  · exact C9_find_int_never_none.2.1 _ _ rfl
  · exact C9_find_int_never_none.2.2 _ _ "5.5" rfl
  · decide

/-- C4: for every references token, AlertReference.from_text attempts a
comma split into exactly three parts; a token splitting into sender,
identifier and a parsable ISO timestamp yields those three fields, and on
any parse failure (wrong arity or unparsable timestamp) the entire token
becomes the bare identifier with sender and sent absent, without raising. -/
theorem C4_reference_token_parse :
    (∀ text s i t dt, pySplitOn text ',' = [s, i, t] →
        pyFromIsoformat t = some dt →
        AlertReference.from_text text = ⟨some s, i, some dt⟩)
  ∧ (∀ text s i t, pySplitOn text ',' = [s, i, t] →
        pyFromIsoformat t = none →
        AlertReference.from_text text = ⟨none, text, none⟩)
  ∧ (∀ text : String, (∀ s i t, pySplitOn text ',' ≠ [s, i, t]) →
        AlertReference.from_text text = ⟨none, text, none⟩) := by
  refine ⟨?_, ?_, ?_⟩
  · intro text s i t dt hsplit hiso
    simp [AlertReference.from_text, hsplit, hiso]
  · intro text s i t hsplit hiso
    simp [AlertReference.from_text, hsplit, hiso]
  · intro text h
    unfold AlertReference.from_text
    split
    case _ s i t heq => exact absurd heq (h s i t)
    case _ => rfl

theorem C4_witness :
    AlertReference.from_text "S,I,2020-01-01T00:00:00+00:00" =
      ⟨some "S", "I", some ⟨2020, 1, 1, 0, 0, 0, 0, some 0⟩⟩
  ∧ AlertReference.from_text "not,enough" = ⟨none, "not,enough", none⟩ := by
  constructor
  · exact C4_reference_token_parse.1 "S,I,2020-01-01T00:00:00+00:00" "S" "I"
      "2020-01-01T00:00:00+00:00" ⟨2020, 1, 1, 0, 0, 0, 0, some 0⟩
      (by decide) (by decide)
  · refine C4_reference_token_parse.2.2 "not,enough" ?_
    intro s i t h
    rw [show pySplitOn "not,enough" ',' = ["not", "enough"] from rfl] at h
    simp at h

/-- C10: when a circle text splits into exactly two comma-separated
coordinates and one radius token but a part is not numeric, from_circle_text
raises the raw float-conversion ValueError, never the tagged
IPAWSAlertsError, because the float conversions sit outside the try/except
that produces the tagged error. -/
theorem C10_circle_raw_numeric_error :
    ∀ text coords radius latitude longitude,
      pySplitWS text = [coords, radius] →
      pySplitOn coords ',' = [latitude, longitude] →
      ((pyFloatStr latitude = none →
          AreaPolygon.from_circle_text text = .error (.valueErrorFloat latitude))
       ∧ (∀ qla, pyFloatStr latitude = some qla → pyFloatStr longitude = none →
          AreaPolygon.from_circle_text text = .error (.valueErrorFloat longitude))
       ∧ (∀ qla qlo, pyFloatStr latitude = some qla →
          pyFloatStr longitude = some qlo → pyFloatStr radius = none →
          AreaPolygon.from_circle_text text = .error (.valueErrorFloat radius))
       ∧ (∀ m d, AreaPolygon.from_circle_text text ≠
            .error (.ipawsAlertsError m d))) := by
  intro text coords radius latitude longitude hws hc
  refine ⟨?_, ?_, ?_, ?_⟩
  · intro hla
    simp [AreaPolygon.from_circle_text, hws, hc, hla]
  · intro qla hla hlo
    simp [AreaPolygon.from_circle_text, hws, hc, hla, hlo]
  · intro qla qlo hla hlo hr
    simp [AreaPolygon.from_circle_text, hws, hc, hla, hlo, hr]
  · intro m d hcon
    simp only [AreaPolygon.from_circle_text, hws, hc] at hcon
    cases hla : pyFloatStr latitude with
    | none => rw [hla] at hcon; simp at hcon
    | some qla =>
        rw [hla] at hcon
        cases hlo : pyFloatStr longitude with
        | none => rw [hlo] at hcon; simp at hcon
        | some qlo =>
            rw [hlo] at hcon
            cases hr : pyFloatStr radius with
            | none => rw [hr] at hcon; simp at hcon
            | some qr => rw [hr] at hcon; simp at hcon

theorem C10_witness :
    AreaPolygon.from_circle_text "abc,1 2" = .error (.valueErrorFloat "abc") :=
  (C10_circle_raw_numeric_error "abc,1 2" "abc,1" "2" "abc" "1"
    (by decide) (by decide)).1 (by decide)

/-- Specification-side reading of one polygon token (spec 4.2): split the
token on comma into lat and lon; the ring point is (x = lon, y = lat);
absent when the token does not split into exactly two float-parsable
parts. -/
def specTokenPoint (tok : String) : Option (Rat × Rat) :=
  match pySplitOn tok ',' with
  | [latitude, longitude] =>
      match pyFloatStr latitude, pyFloatStr longitude with
      | some la, some lo => some (lo, la)
      | _, _ => none
  | _ => none

theorem parsePoints_error_of_mem :
    ∀ {toks : List String} {tok : String}, tok ∈ toks →
      specTokenPoint tok = none → ∃ e, parsePoints toks = .error e := by
  intro toks
  induction toks with
  | nil => intro tok h; cases h
  | cons t rest ih =>
      intro tok hmem hnone
      rcases List.mem_cons.mp hmem with rfl | hmem2
      · rcases hsp : pySplitOn tok ',' with _ | ⟨la, _ | ⟨lo, _ | ⟨x, xs⟩⟩⟩
        · exact ⟨.valueErrorUnpack, by simp [parsePoints, hsp]⟩
        · exact ⟨.valueErrorUnpack, by simp [parsePoints, hsp]⟩
        · cases hlo : pyFloatStr lo with
          | none => exact ⟨.valueErrorFloat lo, by simp [parsePoints, hsp, hlo]⟩
          | some qlo =>
              cases hla : pyFloatStr la with
              | none =>
                  exact ⟨.valueErrorFloat la, by simp [parsePoints, hsp, hlo, hla]⟩
              | some qla =>
                  exfalso
                  simp [specTokenPoint, hsp, hla, hlo] at hnone
        · exact ⟨.valueErrorUnpack, by simp [parsePoints, hsp]⟩
      · obtain ⟨e, he⟩ := ih hmem2 hnone
        rcases hsp : pySplitOn t ',' with _ | ⟨la, _ | ⟨lo, _ | ⟨x, xs⟩⟩⟩
        · exact ⟨.valueErrorUnpack, by simp [parsePoints, hsp]⟩
        · exact ⟨.valueErrorUnpack, by simp [parsePoints, hsp]⟩
        · cases hlo : pyFloatStr lo with
          | none => exact ⟨.valueErrorFloat lo, by simp [parsePoints, hsp, hlo]⟩
          | some qlo =>
              cases hla : pyFloatStr la with
              | none =>
                  exact ⟨.valueErrorFloat la, by simp [parsePoints, hsp, hlo, hla]⟩
              | some qla => exact ⟨e, by simp [parsePoints, hsp, hlo, hla, he]⟩
        · exact ⟨.valueErrorUnpack, by simp [parsePoints, hsp]⟩

/-- C5: every whitespace-separated polygon token is split on comma into lat
and lon and appended to the ring in (x = lon, y = lat) order, and
from_polygon_text fails with the tagged IPAWSAlertsError("Malformed
AreaPolygon[polygon]", text) as soon as any token does not split into
exactly two numeric parts.  The `Polygon(points)` construction after the
except clause adds one further, untagged failure mode: a parsed ring of one
or two points raises shapely's ring-size ValueError, so the builder returns
the polygon only for zero or at least three parsed points. -/
theorem C5_polygon_token_parse :
    (∀ toks : List String, (∀ tok ∈ toks, (specTokenPoint tok).isSome) →
        parsePoints toks = .ok (toks.filterMap specTokenPoint))
  ∧ (∀ text : String, (∀ tok ∈ pySplitWS text, (specTokenPoint tok).isSome) →
        ((pySplitWS text).filterMap specTokenPoint).length ≠ 1 →
        ((pySplitWS text).filterMap specTokenPoint).length ≠ 2 →
        AreaPolygon.from_polygon_text text =
          .ok ⟨4326, .polygon ((pySplitWS text).filterMap specTokenPoint)⟩)
  ∧ (∀ text : String, (∀ tok ∈ pySplitWS text, (specTokenPoint tok).isSome) →
        (((pySplitWS text).filterMap specTokenPoint).length = 1 ∨
          ((pySplitWS text).filterMap specTokenPoint).length = 2) →
        AreaPolygon.from_polygon_text text =
          .error (.valueErrorRing
            ((pySplitWS text).filterMap specTokenPoint).length))
  ∧ (∀ (text : String) (tok : String), tok ∈ pySplitWS text →
        specTokenPoint tok = none →
        AreaPolygon.from_polygon_text text =
          .error (.ipawsAlertsError "Malformed AreaPolygon[polygon]" text)) := by
  have key : ∀ toks : List String, (∀ tok ∈ toks, (specTokenPoint tok).isSome) →
      parsePoints toks = .ok (toks.filterMap specTokenPoint) := by
    intro toks
    induction toks with
    | nil => intro _; simp [parsePoints]
    | cons t rest ih =>
        intro h
        have ht := h t (List.mem_cons_self t rest)
        rcases hsp : pySplitOn t ',' with _ | ⟨la, _ | ⟨lo, _ | ⟨x, xs⟩⟩⟩ <;>
          simp only [specTokenPoint, hsp] at ht
        · simp at ht
        · simp at ht
        · cases hla : pyFloatStr la with
          | none => simp [hla] at ht
          | some qla =>
              cases hlo : pyFloatStr lo with
              | none => simp [hla, hlo] at ht
              | some qlo =>
                  have hrest := ih (fun tok hm => h tok (List.mem_cons_of_mem t hm))
                  have hspec : specTokenPoint t = some (qlo, qla) := by
                    simp [specTokenPoint, hsp, hla, hlo]
                  simp [parsePoints, hsp, hla, hlo, hrest,
                    List.filterMap_cons, hspec]
        · simp at ht
  refine ⟨key, ?_, ?_, ?_⟩
  · intro text h hne1 hne2
    have hsp : shapelyPolygon ((pySplitWS text).filterMap specTokenPoint) =
        .ok (.polygon ((pySplitWS text).filterMap specTokenPoint)) := by
      unfold shapelyPolygon
      exact if_neg (fun hc => hc.elim hne1 hne2)
    rw [AreaPolygon.from_polygon_text, key (pySplitWS text) h]
    dsimp only
    rw [hsp]
  · intro text h hor
    have hsp : shapelyPolygon ((pySplitWS text).filterMap specTokenPoint) =
        .error (.valueErrorRing
          ((pySplitWS text).filterMap specTokenPoint).length) := by
      unfold shapelyPolygon
      exact if_pos hor
    rw [AreaPolygon.from_polygon_text, key (pySplitWS text) h]
    dsimp only
    rw [hsp]
  · intro text tok hmem hnone
    obtain ⟨e, he⟩ := parsePoints_error_of_mem hmem hnone
    rw [AreaPolygon.from_polygon_text, he]

theorem C5_witness :
    AreaPolygon.from_polygon_text "1.5,2.5 3,4 5,6" =
      .ok ⟨4326, .polygon ((pySplitWS "1.5,2.5 3,4 5,6").filterMap specTokenPoint)⟩
  ∧ (pySplitWS "1.5,2.5 3,4 5,6").filterMap specTokenPoint =
      [(mkRat 25 10, mkRat 15 10), (((4 : Int) : Rat), ((3 : Int) : Rat)),
        (((6 : Int) : Rat), ((5 : Int) : Rat))]
  ∧ AreaPolygon.from_polygon_text "1.5,2.5 3,4" = .error (.valueErrorRing 2)
  ∧ AreaPolygon.from_polygon_text "abc 1,2" =
      .error (.ipawsAlertsError "Malformed AreaPolygon[polygon]" "abc 1,2") := by
  refine ⟨?_, ?_, ?_, ?_⟩
  · exact C5_polygon_token_parse.2.1 "1.5,2.5 3,4 5,6" (by decide) (by decide)
      (by decide)
  · rfl
  · exact C5_polygon_token_parse.2.2.1 "1.5,2.5 3,4" (by decide) (by decide)
  · exact C5_polygon_token_parse.2.2.2 "abc 1,2" "abc" (by decide) (by decide)

/-- C2 (code bug): the circle builder places the buffered point at
(x = latitude, y = longitude): for the circle text "34.05,-118.25 5" the
buffered point sits at (34.05, -118.25), so the resulting polygon's centroid
is (34.05, -118.25) and not the (-118.25, 34.05) that the specification
(and the sibling from_polygon_text, which emits (x = lon, y = lat)) call
for. -/
theorem C2_circle_swaps_lat_lon :
    AreaPolygon.from_circle_text "34.05,-118.25 5" =
      .ok ⟨4326, .buffered (mkRat 3405 100) (-(mkRat 11825 100))
        (((5 : Int) : Rat) * 1000)⟩
  ∧ (mkRat 3405 100 : Rat) = 681 / 20
  ∧ (-(mkRat 11825 100) : Rat) = -473 / 4
  ∧ (((5 : Int) : Rat) * 1000) = 5000
  ∧ Geom.centroid (.buffered (mkRat 3405 100) (-(mkRat 11825 100))
        (((5 : Int) : Rat) * 1000)) =
      some (mkRat 3405 100, -(mkRat 11825 100))
  ∧ (((681 : Rat) / 20, (-473 : Rat) / 4) : Rat × Rat) ≠
      ((-473 : Rat) / 4, (681 : Rat) / 20) := by
  refine ⟨rfl, ?_, ?_, ?_, rfl, ?_⟩
  · rw [Rat.mkRat_eq_div]; norm_num
  · rw [Rat.mkRat_eq_div]; norm_num
  · norm_num
  · intro h
    have h1 := congrArg Prod.fst h
    norm_num at h1

theorem listComp_error_shape {A B : Type} {f : A → Except PyErr B} :
    ∀ {l : List A} {e : PyErr}, listComp f l = .error e → ∃ x ∈ l, f x = .error e := by
  intro l
  induction l with
  | nil => intro e h; simp [listComp] at h
  | cons x xs ih =>
      intro e h
      simp only [listComp] at h
      cases hfx : f x with
      | error e2 =>
          simp only [hfx, Except.error.injEq] at h
          exact ⟨x, List.mem_cons_self x xs, by rw [hfx, h]⟩
      | ok y =>
          simp only [hfx] at h
          cases hrest : listComp f xs with
          | error e3 =>
              simp only [hrest, Except.error.injEq] at h
              obtain ⟨z, hz, hfz⟩ := ih hrest
              subst h
              exact ⟨z, List.mem_cons_of_mem x hz, hfz⟩
          | ok ys => simp only [hrest] at h; cases h

theorem listComp_exists_error {A B : Type} {f : A → Except PyErr B} :
    ∀ {l : List A} {x : A} {e0 : PyErr}, x ∈ l → f x = .error e0 →
      ∃ e, listComp f l = .error e := by
  intro l
  induction l with
  | nil => intro x e0 h; cases h
  | cons y ys ih =>
      intro x e0 hmem hfx
      cases hfy : f y with
      | error e2 => exact ⟨e2, by simp [listComp, hfy]⟩
      | ok b =>
          rcases List.mem_cons.mp hmem with rfl | hmem2
          · rw [hfy] at hfx; cases hfx
          · obtain ⟨e, he⟩ := ih hmem2 hfx
            exact ⟨e, by simp [listComp, hfy, he]⟩

theorem listComp_ok_of_forall {A B : Type} {f : A → Except PyErr B} :
    ∀ {l : List A}, (∀ x ∈ l, ∃ y, f x = .ok y) →
      ∃ ys, listComp f l = .ok ys := by
  intro l
  induction l with
  | nil => intro _; exact ⟨[], rfl⟩
  | cons x xs ih =>
      intro h
      obtain ⟨y, hy⟩ := h x (List.mem_cons_self x xs)
      obtain ⟨ys, hys⟩ := ih (fun z hz => h z (List.mem_cons_of_mem x hz))
      exact ⟨y :: ys, by simp [listComp, hy, hys]⟩

theorem catFromValue_error {s : String} {e : PyErr}
    (h : AlertCategoryCode.fromValue s = .error e) :
    e = .valueErrorEnum "AlertCategoryCode" s := by
  unfold AlertCategoryCode.fromValue at h
  split at h <;> simp_all

theorem respFromValue_error {s : String} {e : PyErr}
    (h : AlertResponseTypeCode.fromValue s = .error e) :
    e = .valueErrorEnum "AlertResponseTypeCode" s := by
  unfold AlertResponseTypeCode.fromValue at h
  split at h <;> simp_all

theorem convint_error {st : String} {e : PyErr} (h : convint st = .error e) :
    e = .valueErrorFloat st := by
  unfold convint at h
  split at h
  · cases h
  · split at h
    · cases h
    · exact (Except.error.injEq _ _).mp h.symm

theorem findint_error {elem : Xml} {p : String} {e : PyErr}
    (h : findint elem p = .error e) : ∃ s, e = .valueErrorFloat s := by
  unfold findint at h
  split at h
  case _ s hs =>
      cases hc : convint s with
      | ok n => rw [hc] at h; simp [Except.map] at h
      | error e2 =>
          rw [hc] at h
          simp [Except.map] at h
          exact ⟨s, by rw [← h]; exact convint_error hc⟩
  case _ => cases h

theorem parseOptDate_error {elem : Xml} {p : String} {e : PyErr}
    (h : parseOptDate elem p = .error e) : ∃ s, e = .valueErrorIso s := by
  unfold parseOptDate at h
  split at h
  case _ s hs =>
      split at h
      · cases h
      · exact ⟨s, ((Except.error.injEq _ _).mp h).symm⟩
  case _ => cases h

theorem resource_error {elem : Xml} {e : PyErr}
    (h : AlertInfoResource.from_element elem = .error e) :
    ∃ s, e = .valueErrorFloat s := by
  unfold AlertInfoResource.from_element at h
  split at h
  case _ e2 heq =>
      cases h
      exact findint_error heq
  case _ => cases h

theorem circle_error {t : String} {e : PyErr}
    (h : AreaPolygon.from_circle_text t = .error e) :
    (∃ s, e = .valueErrorFloat s)
  ∨ e = .ipawsAlertsError "Malformed AreaPolygon[circle]" t := by
  unfold AreaPolygon.from_circle_text at h
  split at h
  · split at h
    · split at h
      · exact Or.inl ⟨_, ((Except.error.injEq _ _).mp h).symm⟩
      · split at h
        · exact Or.inl ⟨_, ((Except.error.injEq _ _).mp h).symm⟩
        · split at h
          · exact Or.inl ⟨_, ((Except.error.injEq _ _).mp h).symm⟩
          · cases h
    · exact Or.inr ((Except.error.injEq _ _).mp h).symm
  · exact Or.inr ((Except.error.injEq _ _).mp h).symm

theorem polygon_error {t : String} {e : PyErr}
    (h : AreaPolygon.from_polygon_text t = .error e) :
    e = .ipawsAlertsError "Malformed AreaPolygon[polygon]" t
  ∨ ∃ n, e = .valueErrorRing n := by
  unfold AreaPolygon.from_polygon_text at h
  split at h
  next pts heq1 =>
      split at h
      next e2 heq2 =>
          cases h
          unfold shapelyPolygon at heq2
          split at heq2
          · exact Or.inr ⟨pts.length, ((Except.error.injEq _ _).mp heq2).symm⟩
          · cases heq2
      next g heq2 => cases h
  next e0 heq1 =>
      exact Or.inl ((Except.error.injEq _ _).mp h).symm

theorem area_error {elem : Xml} {e : PyErr} (h : Area.from_element elem = .error e) :
    (∃ s, e = .valueErrorFloat s) ∨ (∃ m d, e = .ipawsAlertsError m d)
  ∨ (∃ n, e = .valueErrorRing n) := by
  unfold Area.from_element at h
  split at h
  case _ e2 heq =>
      cases h
      obtain ⟨x, _, hx⟩ := listComp_error_shape heq
      rcases polygon_error hx with h1 | ⟨n, h1⟩
      · exact Or.inr (Or.inl ⟨_, _, h1⟩)
      · exact Or.inr (Or.inr ⟨n, h1⟩)
  case _ =>
      split at h
      case _ e2 heq =>
          cases h
          obtain ⟨x, _, hx⟩ := listComp_error_shape heq
          rcases circle_error hx with h1 | h1
          · exact Or.inl h1
          · exact Or.inr (Or.inl ⟨_, _, h1⟩)
      case _ =>
          split at h
          case _ e2 heq =>
              cases h
              exact Or.inl (findint_error heq)
          case _ =>
              split at h
              case _ e2 heq =>
                  cases h
                  exact Or.inl (findint_error heq)
              case _ => cases h

def c3InfoElem : Xml := .node "cap:info" none [.node "cap:severity" (some "Unkown") []]

def c3AlertElem : Xml := .node "alert" none [c3InfoElem]

/-- C3 counterexample: a severity element containing "Unkown" (not in the
AlertSeverity vocabulary) does not fail normalization; the whole alert
normalizes successfully with the raw string stored. -/
theorem C3_counterexample :
    (Alert.from_element c3AlertElem).toOption.map
        (fun a => a.alert_info.map (fun i => i.severity)) = some [some "Unkown"]
  ∧ "Unkown" ∉ alertSeverityValues := by
  exact ⟨rfl, by decide⟩

/-- C3 (amended): during normalization only the category and responseType
enum fields are validated against their vocabularies (an unrecognized value
raises the enum ValueError and fails the whole info block); severity,
urgency and certainty are passed through as raw unvalidated strings, and no
enum error raised by normalization ever concerns them. -/
theorem C3_enum_validation_scope :
    (∀ elem x, x ∈ findalltext elem "cap:responseType" →
        AlertResponseTypeCode.fromValue x =
          .error (.valueErrorEnum "AlertResponseTypeCode" x) →
        ∃ y, AlertInfo.from_element elem =
          .error (.valueErrorEnum "AlertResponseTypeCode" y))
  ∧ (∀ elem x, (∀ r ∈ findalltext elem "cap:responseType",
          ∃ v, AlertResponseTypeCode.fromValue r = .ok v) →
        x ∈ findalltext elem "cap:category" →
        AlertCategoryCode.fromValue x =
          .error (.valueErrorEnum "AlertCategoryCode" x) →
        ∃ y, AlertInfo.from_element elem =
          .error (.valueErrorEnum "AlertCategoryCode" y))
  ∧ (∀ elem info, AlertInfo.from_element elem = .ok info →
        info.severity = findtext elem "cap:severity"
        ∧ info.urgency = findtext elem "cap:urgency"
        ∧ info.certainty = findtext elem "cap:certainty")
  ∧ (∀ elem n v, AlertInfo.from_element elem = .error (.valueErrorEnum n v) →
        n = "AlertCategoryCode" ∨ n = "AlertResponseTypeCode") := by
  refine ⟨?_, ?_, ?_, ?_⟩
  · intro elem x hmem herr
    obtain ⟨e, he⟩ := listComp_exists_error hmem herr
    obtain ⟨z, hz, hfz⟩ := listComp_error_shape he
    refine ⟨z, ?_⟩
    have hshape := respFromValue_error hfz
    simp only [AlertInfo.from_element, he, hshape]
  · intro elem x hresp hmem herr
    obtain ⟨rts, hrts⟩ := listComp_ok_of_forall hresp
    obtain ⟨e, he⟩ := listComp_exists_error hmem herr
    obtain ⟨z, hz, hfz⟩ := listComp_error_shape he
    refine ⟨z, ?_⟩
    have hshape := catFromValue_error hfz
    simp only [AlertInfo.from_element, hrts, he, hshape]
  · intro elem info h
    unfold AlertInfo.from_element at h
    split at h
    · exact Except.noConfusion h
    · split at h
      · exact Except.noConfusion h
      · split at h
        · exact Except.noConfusion h
        · split at h
          · exact Except.noConfusion h
          · split at h
            · exact Except.noConfusion h
            · split at h
              · exact Except.noConfusion h
              · split at h
                · exact Except.noConfusion h
                · injection h with h2
                  rw [← h2]
                  exact ⟨rfl, rfl, rfl⟩
  · intro elem n v h
    unfold AlertInfo.from_element at h
    split at h
    case _ e2 heq =>
        cases h
        obtain ⟨z, hz, hfz⟩ := listComp_error_shape heq
        have hsh := respFromValue_error hfz
        simp only [PyErr.valueErrorEnum.injEq] at hsh
        exact Or.inr hsh.1
    case _ =>
        split at h
        case _ e2 heq =>
            cases h
            obtain ⟨z, hz, hfz⟩ := listComp_error_shape heq
            have hsh := catFromValue_error hfz
            simp only [PyErr.valueErrorEnum.injEq] at hsh
            exact Or.inl hsh.1
        case _ =>
            split at h
            case _ e2 heq =>
                cases h
                obtain ⟨z, hz, hfz⟩ := listComp_error_shape heq
                obtain ⟨s, hs⟩ := resource_error hfz
                simp at hs
            case _ =>
                split at h
                case _ e2 heq =>
                    cases h
                    obtain ⟨z, hz, hfz⟩ := listComp_error_shape heq
                    rcases area_error hfz with ⟨s, hs⟩ | ⟨m, d, hs⟩ | ⟨n, hs⟩ <;>
                      simp at hs
                case _ =>
                    split at h
                    case _ e2 heq =>
                        cases h
                        obtain ⟨s, hs⟩ := parseOptDate_error heq
                        simp at hs
                    case _ =>
                        split at h
                        case _ e2 heq =>
                            cases h
                            obtain ⟨s, hs⟩ := parseOptDate_error heq
                            simp at hs
                        case _ =>
                            split at h
                            case _ e2 heq =>
                                cases h
                                obtain ⟨s, hs⟩ := parseOptDate_error heq
                                simp at hs
                            case _ => exact Except.noConfusion h

def c3RespElem : Xml :=
  .node "cap:info" none [.node "cap:responseType" (some "Panic") []]

def c3CatElem : Xml :=
  .node "cap:info" none [.node "cap:category" (some "Unkown") []]

def c3EmptyInfo : AlertInfo :=
  ⟨none, none, none, none, none, none, none, none, none, none, none, none,
    none, none, none, [], [], [], [], [], []⟩

theorem C3_witness :
    (∃ y, AlertInfo.from_element c3RespElem =
        .error (.valueErrorEnum "AlertResponseTypeCode" y))
  ∧ (∃ y, AlertInfo.from_element c3CatElem =
        .error (.valueErrorEnum "AlertCategoryCode" y))
  ∧ (c3EmptyInfo.severity = findtext (.node "cap:info" none []) "cap:severity"
      ∧ c3EmptyInfo.urgency = findtext (.node "cap:info" none []) "cap:urgency"
      ∧ c3EmptyInfo.certainty = findtext (.node "cap:info" none []) "cap:certainty")
  ∧ ("AlertCategoryCode" = "AlertCategoryCode"
      ∨ "AlertCategoryCode" = "AlertResponseTypeCode") := by
  refine ⟨?_, ?_, ?_, ?_⟩
  · exact C3_enum_validation_scope.1 c3RespElem "Panic" (by decide) rfl
  · refine C3_enum_validation_scope.2.1 c3CatElem "Unkown" ?_ (by decide) rfl
    intro r hr
    rw [show findalltext c3CatElem "cap:responseType" = ([] : List String)
      from rfl] at hr
    cases hr
  · exact C3_enum_validation_scope.2.2.1 (.node "cap:info" none []) c3EmptyInfo rfl
  · exact C3_enum_validation_scope.2.2.2 c3CatElem "AlertCategoryCode" "Unkown" rfl

theorem process_file_cons_ok {l : RawLine} {a : Alert}
    (h : recordResult l = .ok a) :
    ∀ (L : List RawLine) (db : DB),
      process_file (l :: L) db = process_file L (db ++ [a]) := by
  intro L db
  unfold recordResult at h
  cases hd : decodeLine l with
  | error e => simp only [hd] at h; cases h
  | ok raw =>
      simp only [hd] at h
      cases he : etree_fromstring raw with
      | error e => simp only [he] at h; cases h
      | ok root =>
          simp only [he] at h
          simp [process_file, insert_alert, hd, he, h]

theorem process_file_cons_err {l : RawLine} {e : PyErr}
    (h : recordResult l = .error e) :
    ∀ (L : List RawLine) (db : DB), process_file (l :: L) db = (db, .error e) := by
  intro L db
  unfold recordResult at h
  cases hd : decodeLine l with
  | error e2 =>
      simp only [hd, Except.error.injEq] at h
      subst h
      simp [process_file, hd]
  | ok raw =>
      simp only [hd] at h
      cases he : etree_fromstring raw with
      | error e2 =>
          simp only [he, Except.error.injEq] at h
          subst h
          simp [process_file, insert_alert, hd, he]
      | ok root =>
          simp only [he] at h
          simp [process_file, insert_alert, hd, he, h]

/-- C1 (amended): process_file has no per-record error handling: the first
failing record's exception propagates and aborts the file, records before it
remain committed, the failing record and all later ones are not persisted,
and no (attempted, failed) counts are produced. -/
theorem C1_first_failure_aborts_file :
    ∀ (pre : List RawLine) (l : RawLine) (rest : List RawLine) (db : DB)
      (e : PyErr),
      (∀ x ∈ pre, ∃ a, recordResult x = .ok a) →
      recordResult l = .error e →
      process_file (pre ++ l :: rest) db =
        (db ++ pre.filterMap (fun x => (recordResult x).toOption), .error e) := by
  intro pre
  induction pre with
  | nil =>
      intro l rest db e _ herr
      simp [process_file_cons_err herr]
  | cons x pre ih =>
      intro l rest db e hok herr
      obtain ⟨a, ha⟩ := hok x (List.mem_cons_self x pre)
      rw [List.cons_append, process_file_cons_ok ha,
        ih l rest (db ++ [a]) e (fun z hz => hok z (List.mem_cons_of_mem x hz))
          herr]
      simp [List.filterMap_cons, ha, Except.toOption]

def okLine : RawLine := .record (.valid (.node "alert" none []))

def badLine : RawLine := .record (.invalid "<broken")

def emptyAlert : Alert :=
  ⟨none, none, none, none, none, none, none, none, none, [], [], [], [], []⟩

/-- C1 counterexample: in a 3-record file whose second record holds invalid
XML, process_file stops at record 2 with the XML error escaping: only record
1 is persisted, record 3 is never attempted, and no (attempted=3, failed=1)
counts are returned. -/
theorem C1_counterexample :
    process_file [okLine, badLine, okLine] ([] : DB) =
      ([emptyAlert], .error (.xmlSyntaxError "<broken"))
  ∧ (process_file [okLine, badLine, okLine] ([] : DB)).2 ≠ .ok ()
  ∧ (process_file [okLine, badLine, okLine] ([] : DB)).1.length = 1 := by
  refine ⟨rfl, by decide, rfl⟩

theorem C1_witness :
    process_file [okLine, badLine, okLine] ([] : DB) =
      (([] : DB) ++ [okLine].filterMap (fun x => (recordResult x).toOption),
        .error (.xmlSyntaxError "<broken")) := by
  exact C1_first_failure_aborts_file [okLine] badLine [okLine] []
    (.xmlSyntaxError "<broken")
    (fun x hx => ⟨emptyAlert, by rw [List.mem_singleton.mp hx]; rfl⟩) rfl

/-- C8: the Orchestrator model never surfaces the job-level failure before
every file has reached a terminal state — the i-th trace event is exactly
file i's terminal event, any jobFailed event sits strictly after all of
them — a failing file aborts no other file, and with zero discovered files
the job completes immediately reporting zero files processed. -/
theorem C8_orchestrator_terminal_states :
    mainTrace [] = [.jobCompleted 0]
  ∧ (∀ (files : List (List RawLine)) (i : Nat), i < files.length →
        ∃ o, (mainTrace files)[i]? = some (.fileTerminal i o))
  ∧ (∀ (files : List (List RawLine)) (e : PyErr) (k : Nat),
        (mainTrace files)[k]? = some (.jobFailed e) →
        ∀ i, i < files.length → i < k)
  ∧ (∀ files : List (List RawLine), firstError (files.map fileOutcome) = none →
        (mainTrace files)[files.length]? = some (.jobCompleted files.length)) := by
  have hlen : ∀ files : List (List RawLine),
      ((files.map fileOutcome).enum.map
        (fun p => JobEvent.fileTerminal p.1 p.2)).length = files.length := by
    intro files
    simp
  have hterm : ∀ (files : List (List RawLine)) (i : Nat), i < files.length →
      ∃ o, (mainTrace files)[i]? = some (.fileTerminal i o) := by
    intro files i hi
    unfold mainTrace
    rw [List.getElem?_append_left (by rw [hlen]; exact hi)]
    cases hf : (files.map fileOutcome)[i]? with
    | none =>
        exfalso
        rw [List.getElem?_eq_none_iff] at hf
        simp at hf
        omega
    | some o =>
        refine ⟨o, ?_⟩
        rw [List.getElem?_map, List.getElem?_enum, hf]
        rfl
  refine ⟨rfl, hterm, ?_, ?_⟩
  · intro files e k hk i hi
    by_contra hcon
    push_neg at hcon
    have hik : k ≤ i := hcon
    have hkl : k < files.length := Nat.lt_of_le_of_lt hik hi
    obtain ⟨o, ho⟩ := hterm files k hkl
    rw [hk] at ho
    cases ho
  · intro files hnone
    unfold mainTrace
    rw [List.getElem?_append_right (by rw [hlen]), hlen, Nat.sub_self, hnone]
    rfl

theorem C8_witness :
    (∃ o, (mainTrace [[RawLine.invalidJson "x"], []])[0]? =
        some (JobEvent.fileTerminal 0 o))
  ∧ 0 < 2
  ∧ (mainTrace ([] : List (List RawLine)))[0]? = some (.jobCompleted 0) := by
  refine ⟨?_, ?_, ?_⟩
  · exact C8_orchestrator_terminal_states.2.1 [[RawLine.invalidJson "x"], []] 0
      (by decide)
  · exact C8_orchestrator_terminal_states.2.2.1 [[RawLine.invalidJson "x"], []]
      (.jsonDecodeError "x") 2 rfl 0 (by decide)
  · exact C8_orchestrator_terminal_states.2.2.2 [] rfl

theorem isWordChar_not_ws {c : Char} (h : isWordChar c = true) :
    c.isWhitespace = false := by
  unfold isWordChar at h
  simp only [Bool.and_eq_true, decide_eq_true_eq] at h
  cases hw : c.isWhitespace with
  | false => rfl
  | true =>
      exfalso
      simp only [Char.isWhitespace, Bool.or_eq_true, decide_eq_true_eq] at hw
      have hlt : c.toNat < 33 := by
        rcases hw with ((rfl | rfl) | rfl) | rfl <;> decide
      omega

theorem isWordChar_ne_quote {c : Char} (h : isWordChar c = true) : ¬ (c = '"') := by
  unfold isWordChar at h
  simp only [Bool.and_eq_true, bne_iff_ne] at h
  exact h.2

theorem scanQuote_append {content rest : List Char}
    (h : ∀ c ∈ content, c ≠ '"' ∧ c ≠ '\n') :
    scanQuote (content ++ '"' :: rest) = some (content, rest) := by
  induction content with
  | nil => simp [scanQuote]
  | cons c cs ih =>
      obtain ⟨h1, h2⟩ := h c (List.mem_cons_self c cs)
      rw [List.cons_append, scanQuote, if_neg h1, if_neg h2,
        ih (fun d hd => h d (List.mem_cons_of_mem c hd))]

theorem scanQuote_none {content : List Char} (h : ∀ c ∈ content, c ≠ '"') :
    scanQuote content = none := by
  induction content with
  | nil => rfl
  | cons c cs ih =>
      have h1 := h c (List.mem_cons_self c cs)
      by_cases hn : c = '\n'
      · rw [scanQuote, if_neg h1, if_pos hn]
      · rw [scanQuote, if_neg h1, if_neg hn,
          ih (fun d hd => h d (List.mem_cons_of_mem c hd))]

theorem takeWhile_all_append {p : Char → Bool} {w rest : List Char}
    (hw : ∀ c ∈ w, p c = true)
    (hr : ∀ d, rest.head? = some d → p d = false) :
    (w ++ rest).takeWhile p = w ∧ (w ++ rest).dropWhile p = rest := by
  induction w with
  | nil =>
      simp only [List.nil_append]
      cases rest with
      | nil => simp
      | cons d rest2 =>
          have hd := hr d rfl
          rw [List.takeWhile_cons, List.dropWhile_cons]
          simp [hd]
  | cons a w2 ih =>
      have ha := hw a (List.mem_cons_self a w2)
      obtain ⟨ht, hd⟩ := ih (fun c hc => hw c (List.mem_cons_of_mem a hc))
      simp [List.takeWhile_cons, List.dropWhile_cons, ha, ht, hd]

theorem tokenize_cons_ws {c : Char} {cs : List Char} (h : c.isWhitespace = true) :
    tokenize (c :: cs) = tokenize cs := by
  rw [tokenize.eq_def]
  simp [h]

theorem tokenize_skip_ws {ws l : List Char} (h : ∀ c ∈ ws, c.isWhitespace = true) :
    tokenize (ws ++ l) = tokenize l := by
  induction ws with
  | nil => rfl
  | cons c cs ih =>
      rw [List.cons_append, tokenize_cons_ws (h c (List.mem_cons_self c cs)),
        ih (fun d hd => h d (List.mem_cons_of_mem c hd))]

theorem tokenize_quote {content rest : List Char}
    (h : ∀ c ∈ content, c ≠ '"' ∧ c ≠ '\n') :
    tokenize ('"' :: (content ++ '"' :: rest)) =
      content.asString :: tokenize rest := by
  rw [tokenize.eq_def]
  simp only [show Char.isWhitespace '"' = false from rfl, Bool.false_eq_true,
    if_false, eq_self_iff_true, if_true]
  split
  case _ content2 rest2 heq =>
      rw [scanQuote_append h] at heq
      simp only [Option.some.injEq, Prod.mk.injEq] at heq
      rw [heq.1, heq.2]
  case _ heq =>
      rw [scanQuote_append h] at heq
      exact Option.noConfusion heq

theorem tokenize_unterminated {content : List Char} (h : ∀ c ∈ content, c ≠ '"') :
    tokenize ('"' :: content) = [] := by
  rw [tokenize.eq_def]
  simp only [show Char.isWhitespace '"' = false from rfl, Bool.false_eq_true,
    if_false, eq_self_iff_true, if_true]
  split
  case _ content2 rest2 heq =>
      rw [scanQuote_none h] at heq
      exact Option.noConfusion heq
  case _ => rfl

theorem tokenize_word {w rest : List Char}
    (hw : ∀ c ∈ w, isWordChar c = true) (hne : w ≠ [])
    (hr : ∀ d, rest.head? = some d → isWordChar d = false) :
    tokenize (w ++ rest) = w.asString :: tokenize rest := by
  cases w with
  | nil => exact absurd rfl hne
  | cons a w2 =>
      have ha := hw a (List.mem_cons_self a w2)
      have hnws := isWordChar_not_ws ha
      have hnq := isWordChar_ne_quote ha
      obtain ⟨ht, hd⟩ := takeWhile_all_append hw hr
      rw [List.cons_append, tokenize.eq_def]
      simp only [hnws, Bool.false_eq_true, if_false, if_neg hnq, ha, dif_pos]
      rw [← List.cons_append, ht, hd]

/-- C7 (amended): each token the tokenizer produces is either a double-
quoted run with the quotes stripped and the embedded characters (spaces
included) kept literal, or a maximal run of printable non-quote non-space
characters; but the parse is run without parse_all, so TokenizeError
(ParseException) is raised only when an unterminated quote prevents even
the first token from matching — an unterminated quote after at least one
matched token makes the tokenizer return the earlier tokens and silently
drop the remainder. -/
theorem C7_tokenizer_behavior :
    (∀ content rest : List Char, (∀ c ∈ content, c ≠ '"' ∧ c ≠ '\n') →
        tokenize ('"' :: (content ++ '"' :: rest)) =
          content.asString :: tokenize rest)
  ∧ (∀ w rest : List Char, (∀ c ∈ w, isWordChar c = true) → w ≠ [] →
        (∀ d, rest.head? = some d → isWordChar d = false) →
        tokenize (w ++ rest) = w.asString :: tokenize rest)
  ∧ (∀ ws content : List Char, (∀ c ∈ ws, c.isWhitespace = true) →
        (∀ c ∈ content, c ≠ '"') →
        parse_quoted_tokens ((ws ++ '"' :: content).asString) =
          .error (.parseException ((ws ++ '"' :: content).asString)))
  ∧ (∀ w content : List Char, (∀ c ∈ w, isWordChar c = true) → w ≠ [] →
        (∀ c ∈ content, c ≠ '"') →
        parse_quoted_tokens ((w ++ ' ' :: '"' :: content).asString) =
          .ok [w.asString]) := by
  refine ⟨fun content rest h => tokenize_quote h,
    fun w rest hw hne hr => tokenize_word hw hne hr, ?_, ?_⟩
  · intro ws content hws hq
    unfold parse_quoted_tokens
    rw [show ((ws ++ '"' :: content).asString).data = ws ++ '"' :: content
      from rfl]
    rw [tokenize_skip_ws hws, tokenize_unterminated hq]
  · intro w content hw hne hq
    unfold parse_quoted_tokens
    rw [show ((w ++ ' ' :: '"' :: content).asString).data =
      w ++ ' ' :: '"' :: content from rfl]
    rw [tokenize_word hw hne
      (by intro d hd; simp only [List.head?_cons, Option.some.injEq] at hd;
          rw [← hd]; rfl),
      tokenize_cons_ws (by rfl), tokenize_unterminated hq]

/-- C7 counterexample: the input `a "b` contains an unterminated quote (an
odd number of quote characters), yet the tokenizer does not raise
TokenizeError: it returns the token before the quote and silently drops the
rest. -/
theorem C7_counterexample :
    parse_quoted_tokens "a \"b" = .ok ["a"]
  ∧ ("a \"b".data.count '"') = 1 := by
  constructor
  · have h1 : tokenize (['a'] ++ [' ', '"', 'b']) =
        ['a'].asString :: tokenize [' ', '"', 'b'] :=
      tokenize_word (by decide) (by decide)
        (by intro d hd; simp only [List.head?_cons, Option.some.injEq] at hd;
            rw [← hd]; rfl)
    have h2 : tokenize [' ', '"', 'b'] = tokenize ['"', 'b'] :=
      tokenize_cons_ws (by rfl)
    have h3 : tokenize ['"', 'b'] = [] := tokenize_unterminated (by decide)
    unfold parse_quoted_tokens
    rw [show ("a \"b").data = ['a'] ++ [' ', '"', 'b'] from rfl, h1, h2, h3]
    rfl
  · decide

theorem C7_witness :
    tokenize ('"' :: (['b', ' ', 'c'] ++ '"' :: [' ', 'd'])) =
      ['b', ' ', 'c'].asString :: tokenize [' ', 'd']
  ∧ parse_quoted_tokens ((['x', 'y'] ++ ' ' :: '"' :: ['z']).asString) =
      .ok [['x', 'y'].asString]
  ∧ parse_quoted_tokens (([' '] ++ '"' :: ['q']).asString) =
      .error (.parseException (([' '] ++ '"' :: ['q']).asString)) := by
  refine ⟨?_, ?_, ?_⟩
  · exact C7_tokenizer_behavior.1 ['b', ' ', 'c'] [' ', 'd'] (by decide)
  · exact C7_tokenizer_behavior.2.2.2 ['x', 'y'] ['z'] (by decide) (by decide)
      (by decide)
  · exact C7_tokenizer_behavior.2.2.1 [' '] ['q'] (by decide) (by decide)
